import Mathlib

/-!
Shallow embedding of the multi-agent orchestrator core of the `agentops`
repository (`agentops/orchestrator/agent_orchestrator.py` and
`agentops/orchestrator/llm_decomposer.py`), together with theorems settling
the spec claims about decomposition, scheduling, retry accounting and
coordination.

Modelling conventions:
- Python strings are Lean `String`; Python `x in s` (substring test) is
  `strContains`; `str.lower()` is `strLower`.
- A worker ("agent instance") is modelled by the outcomes of its successive
  invocations on a description: `Worker := String → Nat → Except String String`,
  where the second argument is the attempt index (the task's retry count at
  the moment of the call) and the result is the extracted output string on
  success or the exception text on failure.
- The registry `self.agents` is an association list `List (String × Worker)`;
  `available_agents = list(self.agents.keys())` is the list of first
  components.
- Timestamps (`datetime.now().isoformat()`) carry no control-flow meaning;
  they are modelled as `Bool` flags recording whether the field was set.
- Fallible Python expressions (`agents[0]` on a possibly-empty list, dict
  key access `st["task_id"]`) are modelled in `Option`: `none` is an
  uncaught exception escaping to the caller.
- The bounded coordination loop is instrumented to also return the number of
  iterations consumed and whether it exited through the empty-ready-set
  ("stall") break rather than through the while-condition / iteration cap;
  `execute_task`'s retry loop is instrumented with the number of worker
  invocations and the sequence of values written to `status`.
-/

namespace AgentOps

/-- `s.lower()`: character-wise lowercasing of a Python string. -/
def strLower (s : String) : String :=
  String.mk (s.data.map Char.toLower)

/-- Contiguous-sublist test on character lists. -/
def isSubList (needle : List Char) : List Char → Bool
  | [] => needle.isEmpty
  | c :: t => needle.isPrefixOf (c :: t) || isSubList needle t

/-- Python `needle in hay` on strings: substring containment. -/
def strContains (hay needle : String) : Bool :=
  isSubList needle.data hay.data

/-- The mutable execution record `AgentTask` of `agent_orchestrator.py`
(lines 22–55): a subtask with scheduling metadata and retry state. -/
structure AgentTask where
  task_id : String
  description : String
  agent_type : String
  dependencies : List String
  estimated_duration : Nat
  status : String
  result : Option String
  error : Option String
  assigned_agent : Option String
  started_at : Bool
  completed_at : Bool
  retry_count : Nat
  max_retries : Nat
deriving DecidableEq, Repr

/-- The `AgentTask.__init__` defaults: status `"pending"`, no result/error,
retry count 0, max retries 2, estimated duration 3. -/
def mkAgentTask (task_id description agent_type : String)
    (dependencies : List String) : AgentTask :=
  { task_id := task_id
    description := description
    agent_type := agent_type
    dependencies := dependencies
    estimated_duration := 3
    status := "pending"
    result := none
    error := none
    assigned_agent := none
    started_at := false
    completed_at := false
    retry_count := 0
    max_retries := 2 }

/-- `"research" if "research" in agents else agents[0]` — prefer the named
type when registered, otherwise the first available type; `none` models the
`IndexError` of `agents[0]` on an empty list. -/
def pickAgent (pref : String) (agents : List String) : Option String :=
  if agents.contains pref then some pref else agents.head?

/-- `[subtasks[-1].task_id] if subtasks else []`. -/
def lastDeps (subtasks : List AgentTask) : List String :=
  match subtasks.getLast? with
  | some t => [t.task_id]
  | none => []

/-- `AgentOrchestrator._fallback_decompose` (lines 138–173): keyword-based
decomposition. Scans the lowercased task text for "research"/"find", then
"analyze", then "write"/"report", emitting one subtask per matched group,
each depending on the previously emitted subtask (if any); if nothing
matched, emits a single subtask carrying the task text verbatim. `none`
models the `IndexError` raised by `agents[0]` when a keyword group matches
and the preferred type is unregistered while `agents` is empty. -/
def fallback_decompose (task : String) (agents : List String) :
    Option (List AgentTask) :=
  let task_lower := strLower task
  let step1 : Option (List AgentTask) :=
    if strContains task_lower "research" || strContains task_lower "find" then
      (pickAgent "research" agents).map (fun a =>
        [mkAgentTask "task-1" ("Research: " ++ task) a []])
    else some []
  step1.bind (fun subtasks =>
    let step2 : Option (List AgentTask) :=
      if strContains task_lower "analyze" then
        (pickAgent "analysis" agents).map (fun a =>
          subtasks ++ [mkAgentTask ("task-" ++ toString (subtasks.length + 1))
            "Analyze findings" a (lastDeps subtasks)])
      else some subtasks
    step2.bind (fun subtasks =>
      let step3 : Option (List AgentTask) :=
        if strContains task_lower "write" || strContains task_lower "report" then
          (pickAgent "writing" agents).map (fun a =>
            subtasks ++ [mkAgentTask ("task-" ++ toString (subtasks.length + 1))
              "Write report" a (lastDeps subtasks)])
        else some subtasks
      step3.map (fun subtasks =>
        if subtasks.isEmpty then
          [mkAgentTask "task-1" task (agents.headD "general") []]
        else subtasks)))

/-- A subtask dictionary as returned by the decomposition strategy
(`LLMTaskDecomposer.decompose`): a JSON object whose keys may be missing.
`st["k"]` on a `none` field is a `KeyError`. -/
structure SubtaskDict where
  task_id : Option String
  description : Option String
  agent_type : Option String
  dependencies : Option (List String)
  estimated_duration : Option Nat
deriving DecidableEq, Repr

/-- `LLMTaskDecomposer._fallback_decompose` (llm_decomposer.py lines
92–100): the strategy's own trivial single-subtask fallback. -/
def llmSingleFallback (task : String) (agents : List String) : List SubtaskDict :=
  [{ task_id := some "task-1"
     description := some task
     agent_type := some (agents.headD "general")
     dependencies := some []
     estimated_duration := some 3 }]

/-- `LLMTaskDecomposer.decompose` (llm_decomposer.py lines 31–90): the API
call and JSON parse are modelled by their outcome `api`; any error there is
caught inside the strategy, which then returns its own single-subtask
fallback — it does not raise to the engine. -/
def llm_decompose (task : String) (agents : List String)
    (api : Except String (List SubtaskDict)) : List SubtaskDict :=
  match api with
  | Except.ok dicts => dicts
  | Except.error _ => llmSingleFallback task agents

/-- The engine's conversion of strategy output to `AgentTask`s
(`decompose_task` lines 121–130): `st["task_id"]`, `st["description"]`,
`st["agent_type"]` raise `KeyError` when missing (`none` here);
`st.get("dependencies", [])` and `st.get("estimated_duration", 3)` default. -/
def taskFromDict (st : SubtaskDict) : Option AgentTask := do
  let tid ← st.task_id
  let desc ← st.description
  let ty ← st.agent_type
  pure { task_id := tid
         description := desc
         agent_type := ty
         dependencies := st.dependencies.getD []
         estimated_duration := st.estimated_duration.getD 3
         status := "pending"
         result := none
         error := none
         assigned_agent := none
         started_at := false
         completed_at := false
         retry_count := 0
         max_retries := 2 }

/-- The list-comprehension conversion: fails as soon as one dict is malformed. -/
def tasksFromDicts (dicts : List SubtaskDict) : Option (List AgentTask) :=
  dicts.mapM taskFromDict

/-- `AgentOrchestrator.decompose_task` (lines 110–136). `llm` is `none` when
no decomposition strategy is configured (`use_llm and self.decomposer`
falsy); otherwise it carries the outcome of the strategy's API call. Any
exception inside the engine's `try` block — here, a `KeyError` from a
malformed subtask dictionary — is caught and the keyword fallback runs. -/
def decompose_task (agents : List String)
    (llm : Option (Except String (List SubtaskDict))) (task : String) :
    Option (List AgentTask) :=
  match llm with
  | none => fallback_decompose task agents
  | some api =>
    match tasksFromDicts (llm_decompose task agents api) with
    | some tasks => some tasks
    | none => fallback_decompose task agents

/-- A worker capability (`agent.execute`): the outcome of its invocation on a
description at a given attempt index (the subtask's retry count when the
call is made). `Except.ok out` carries the extracted output string
(`result.output if hasattr(result, 'output') else str(result)`);
`Except.error e` carries the exception text. -/
def Worker : Type := String → Nat → Except String String

/-- The registry `self.agents`: worker-type identifier to worker capability. -/
def Registry : Type := List (String × Worker)

/-- `self.agents.get(task.agent_type)`. -/
def lookupAgent (reg : Registry) (ty : String) : Option Worker :=
  (reg.find? (fun p => p.fst == ty)).map Prod.snd

/-- `list(self.agents.keys())`. -/
def registryTypes (reg : Registry) : List String :=
  reg.map Prod.fst

/-- The retry loop of `execute_task` (lines 188–216), instrumented: returns
the resulting record, the number of worker invocations made, and the list of
values written to `status`, in order. The loop runs while
`retry_count <= max_retries`, so it is structurally bounded by the fuel
`max_retries + 1 - retry_count`, which the recursion maintains exactly. -/
def retryLoop (w : Worker) (t : AgentTask) : Nat → AgentTask × Nat × List String
  | 0 => (t, 0, [])
  | Nat.succ fuel =>
    match w t.description t.retry_count with
    | Except.ok out =>
      ({ t with status := "completed", result := some out, completed_at := true },
        1, ["completed"])
    | Except.error e =>
      let rc := t.retry_count + 1
      if rc > t.max_retries then
        ({ t with
            retry_count := rc
            status := "failed"
            error := some ("Failed after " ++ toString t.max_retries ++
              " retries: " ++ e)
            completed_at := true }, 1, ["failed"])
      else
        let r := retryLoop w { t with retry_count := rc } fuel
        (r.fst, r.snd.fst + 1, r.snd.snd)

/-- `AgentOrchestrator.execute_task` (lines 175–217), instrumented with the
worker-invocation count and the sequence of `status` writes. An unregistered
worker type fails immediately with no invocation; otherwise the record is
marked running and enters the retry loop. -/
def executeTaskInstr (reg : Registry) (t : AgentTask) :
    AgentTask × Nat × List String :=
  match lookupAgent reg t.agent_type with
  | none =>
    ({ t with
        status := "failed"
        error := some ("No agent registered for type: " ++ t.agent_type) },
      0, ["failed"])
  | some w =>
    let t1 : AgentTask :=
      { t with
        status := "running"
        started_at := true
        assigned_agent := some t.agent_type }
    let r := retryLoop w t1 (t1.max_retries + 1 - t1.retry_count)
    (r.fst, r.snd.fst, "running" :: r.snd.snd)

/-- The record returned by `execute_task`. -/
def execute_task (reg : Registry) (t : AgentTask) : AgentTask :=
  (executeTaskInstr reg t).fst

/-- The inner dependency check of `get_ready_tasks` (lines 227–232): every
prerequisite identifier must resolve (first match by `task_id`) to a subtask
with status `"completed"`; the loop breaks on the first unmet one. -/
def deps_met (tasks : List AgentTask) : List String → Bool
  | [] => true
  | d :: ds =>
    match tasks.find? (fun u => u.task_id == d) with
    | none => false
    | some u => if u.status == "completed" then deps_met tasks ds else false

/-- The outer loop of `get_ready_tasks`: skip non-pending tasks, collect
those whose dependencies are met. -/
def readyAux (all : List AgentTask) : List AgentTask → List AgentTask
  | [] => []
  | t :: ts =>
    if t.status == "pending" then
      if deps_met all t.dependencies then t :: readyAux all ts
      else readyAux all ts
    else readyAux all ts

/-- `AgentOrchestrator.get_ready_tasks` (lines 219–237). -/
def get_ready_tasks (tasks : List AgentTask) : List AgentTask :=
  readyAux tasks tasks

/-- The readiness predicate: a task is dispatched in an iteration exactly
when it is pending and its prerequisites are met against the pre-iteration
task list. -/
def readyPred (all : List AgentTask) (t : AgentTask) : Bool :=
  t.status == "pending" && deps_met all t.dependencies

/-- The coordination loop of `coordinate` (lines 258–275), instrumented:
returns the final task list, the number of iterations consumed, and whether
the loop exited through the empty-ready-set break (the "stall" warning path)
as opposed to the while-condition or the iteration cap. Each iteration
executes every ready task in place (`asyncio.gather` over the ready set;
each call mutates only its own record, so the batch is the pointwise map
below). The fuel is `max_iterations - iteration`, initially 50. -/
def coordLoop (reg : Registry) : List AgentTask → Nat →
    List AgentTask × Nat × Bool
  | tasks, 0 => (tasks, 0, false)
  | tasks, Nat.succ fuel =>
    if tasks.any (fun t => t.status == "pending") then
      let ready := get_ready_tasks tasks
      if ready.isEmpty then (tasks, 1, true)
      else
        let tasks2 := tasks.map (fun t =>
          if readyPred tasks t then execute_task reg t else t)
        let r := coordLoop reg tasks2 fuel
        (r.fst, r.snd.fst + 1, r.snd.snd)
    else (tasks, 0, false)

/-- The aggregate result dictionary built at the end of `coordinate`
(lines 277–303), restricted to the control-relevant fields; `iterations` and
`stalled` reify the instrumentation of the loop. -/
structure OrchResult where
  task : String
  subtasks : List AgentTask
  total_subtasks : Nat
  completed : Nat
  failed : Nat
  success : Bool
  final_output : String
  iterations : Nat
  stalled : Bool
deriving DecidableEq, Repr

/-- One completed task's block in `final_output`:
`f"{t.task_id} ({t.agent_type}):\n{t.result}"`; Python renders a `None`
result as the text `"None"`. -/
def outputLine (t : AgentTask) : String :=
  t.task_id ++ " (" ++ t.agent_type ++ "):\n" ++ t.result.getD "None"

/-- `AgentOrchestrator.coordinate` (lines 239–316). `none` models an
exception escaping to the caller (only possible from the keyword fallback's
`agents[0]` on an empty registry). Memory is absent (all sink calls no-ops),
matching the optional-sink reading of the spec. -/
def aggregate (complex_task : String) (final : List AgentTask)
    (iters : Nat) (stalled : Bool) : OrchResult :=
  let completedL := final.filter (fun t => t.status == "completed")
  let failedL := final.filter (fun t => t.status == "failed")
  { task := complex_task
    subtasks := final
    total_subtasks := final.length
    completed := completedL.length
    failed := failedL.length
    success := completedL.length == final.length
    final_output := String.intercalate "\n\n" (completedL.map outputLine)
    iterations := iters
    stalled := stalled }

def coordinate (reg : Registry)
    (llm : Option (Except String (List SubtaskDict)))
    (complex_task : String) : Option OrchResult :=
  match decompose_task (registryTypes reg) llm complex_task with
  | none => none
  | some subtasks =>
    let r := coordLoop reg subtasks 50
    some (aggregate complex_task r.fst r.snd.fst r.snd.snd)

/-- The count of pending subtasks: the loop's progress measure. -/
def pendingCount (tasks : List AgentTask) : Nat :=
  tasks.countP (fun t => t.status == "pending")

/-- The ready-set contract as §4.3 states it: the subset of the input, in
input order, of subtasks with status pending whose every prerequisite
identifier resolves to a subtask of the list with status completed. -/
def readySpec (tasks : List AgentTask) : List AgentTask :=
  tasks.filter (fun t =>
    t.status == "pending" &&
      t.dependencies.all (fun d =>
        ((tasks.find? (fun u => u.task_id == d)).map
          (fun u => u.status == "completed")).getD false))

/-- One marker group of the §4.2 fallback algorithm: the marker substrings,
the preferred worker type, and the emitted description as a function of the
task text. -/
def MarkerGroup : Type := List String × String × (String → String)

/-- The fixed scan table of §4.2, in scan order. -/
def markerTable : List MarkerGroup :=
  [ (["research", "find"], "research", fun task => "Research: " ++ task),
    (["analyze"], "analysis", fun _ => "Analyze findings"),
    (["write", "report"], "writing", fun _ => "Write report") ]

/-- One scan step of the §4.2 fallback algorithm: if any marker of the group
occurs in the lowercased text, emit a subtask whose identifier is
`"task-" ++ (1 + number emitted so far)`, assigned to the preferred type if
available else the first available type (failing when there is none), and
depending on the previously emitted subtask if any. -/
def specStep (task_lower task : String) (agents : List String)
    (acc : Option (List AgentTask)) (g : MarkerGroup) :
    Option (List AgentTask) :=
  acc.bind (fun subtasks =>
    if g.fst.any (fun m => strContains task_lower m) then
      (pickAgent g.snd.fst agents).map (fun a =>
        subtasks ++ [mkAgentTask ("task-" ++ toString (subtasks.length + 1))
          (g.snd.snd task) a (lastDeps subtasks)])
    else some subtasks)

/-- Modelled from the spec: the §4.2 fallback algorithm as the spec words
it — scan the lowercased task text through the fixed marker table in order,
and if no marker matched, emit the single subtask carrying the task text
verbatim, assigned to the first available worker type or the sentinel
`"general"`. -/
def fallbackSpec (task : String) (agents : List String) :
    Option (List AgentTask) :=
  let task_lower := strLower task
  (markerTable.foldl (specStep task_lower task agents) (some [])).map
    (fun subtasks =>
      if subtasks.isEmpty then
        [mkAgentTask "task-1" task (agents.headD "general") []]
      else subtasks)

/-- The per-record invariant of the coordination loop, relating a subtask of
the initial (freshly decomposed) list to its current state: identity fields
are unchanged, a still-pending record is untouched, and when every worker
succeeds the status can only be pending or completed. -/
def RInv (a b : AgentTask) : Prop :=
  b.task_id = a.task_id ∧ b.dependencies = a.dependencies ∧
  b.agent_type = a.agent_type ∧ b.description = a.description ∧
  (b.status = "pending" → b = a) ∧
  (b.status = "pending" ∨ b.status = "completed")

/-- A worker that succeeds on every invocation with output `"done"`. -/
def okWorker : Worker := fun _ _ => Except.ok "done"

/-- A worker that fails on every invocation. -/
def failWorker : Worker := fun _ _ => Except.error "boom"

/-- A worker that fails on attempts 0 and 1 and succeeds from attempt 2 on. -/
def flakyWorker : Worker := fun _ n =>
  if n < 2 then Except.error "boom" else Except.ok "done"

/-- The well-formed strategy-output dictionary describing a given subtask. -/
def dictOfTask (t : AgentTask) : SubtaskDict :=
  { task_id := some t.task_id
    description := some t.description
    agent_type := some t.agent_type
    dependencies := some t.dependencies
    estimated_duration := some t.estimated_duration }

/-- A dependency chain `c1 ← c2 ← … ← c50` plus one subtask `s` whose
prerequisite identifier `"zzz"` matches no subtask: the chain consumes one
coordination iteration per link, so the run reaches the iteration cap with
`s` still pending and the stall branch never taken. -/
def chainTasks : List AgentTask :=
  ((List.range 50).map (fun i =>
    mkAgentTask ("c" ++ toString (i + 1)) "d" "w"
      (if i = 0 then [] else ["c" ++ toString i]))) ++
  [mkAgentTask "s" "d" "w" ["zzz"]]

def chainDicts : List SubtaskDict := chainTasks.map dictOfTask

/-- Two subtasks where `b` depends on `a`: an acyclic, fully resolvable
graph. -/
def failPairTasks : List AgentTask :=
  [mkAgentTask "a" "dA" "w" [], mkAgentTask "b" "dB" "w" ["a"]]

def failPairDicts : List SubtaskDict := failPairTasks.map dictOfTask

def failPairRank : String → Nat := fun id => if id = "b" then 1 else 0

/-- The diamond graph a ← {b, c} ← d. -/
def diamondTasks : List AgentTask :=
  [mkAgentTask "a" "dA" "w" [], mkAgentTask "b" "dB" "w" ["a"],
   mkAgentTask "c" "dC" "w" ["a"], mkAgentTask "d" "dD" "w" ["b", "c"]]

def diamondDicts : List SubtaskDict := diamondTasks.map dictOfTask

def diamondRank : String → Nat := fun id =>
  if id = "a" then 0 else if id = "d" then 2 else 1

/-- One resolvable-pair subtask set with a stuck companion: `a` plus `s`
depending on the unresolvable `"zzz"`. -/
def stuckTasks : List AgentTask :=
  [mkAgentTask "a" "dA" "w" [], mkAgentTask "s" "dS" "w" ["zzz"]]

def stuckDicts : List SubtaskDict := stuckTasks.map dictOfTask

theorem deps_met_eq_all (tasks : List AgentTask) (ds : List String) :
    deps_met tasks ds =
      ds.all (fun d =>
        ((tasks.find? (fun u => u.task_id == d)).map
          (fun u => u.status == "completed")).getD false) := by
  induction ds with
  | nil => rfl
  | cons d ds ih =>
    simp only [deps_met, List.all_cons]
    cases h : tasks.find? (fun u => u.task_id == d) with
    | none => simp
    | some u =>
      by_cases hu : u.status == "completed"
      · simp [hu, ih]
      · simp [Bool.eq_false_iff.mpr hu]

theorem readyAux_eq_filter (all : List AgentTask) (ts : List AgentTask) :
    readyAux all ts = ts.filter (readyPred all) := by
  induction ts with
  | nil => rfl
  | cons t ts ih =>
    simp only [readyAux, List.filter_cons, readyPred]
    by_cases hp : t.status == "pending"
    · by_cases hd : deps_met all t.dependencies
      · simp [hp, hd, ih]
      · simp [hp, Bool.eq_false_iff.mpr hd, ih]
    · simp [Bool.eq_false_iff.mpr hp, ih]

theorem get_ready_tasks_eq_filter (tasks : List AgentTask) :
    get_ready_tasks tasks = tasks.filter (readyPred tasks) :=
  readyAux_eq_filter tasks tasks

/-- C7: for every list of subtasks, the ready set is exactly the subtasks
with status pending whose every prerequisite identifier resolves to a
subtask of the list with status completed, in the relative order of the
input list. -/
theorem get_ready_tasks_spec (tasks : List AgentTask) :
    get_ready_tasks tasks = readySpec tasks ∧
    (get_ready_tasks tasks).Sublist tasks := by
  have h : get_ready_tasks tasks = readySpec tasks := by
    rw [get_ready_tasks_eq_filter, readySpec]
    apply List.filter_congr
    intro t _
    simp [readyPred, deps_met_eq_all]
  exact ⟨h, by rw [get_ready_tasks_eq_filter]; exact List.filter_sublist tasks⟩

/-- C10: the ready-set computation is a pure observer — every record it
returns is an element of the input list with every field unchanged, and the
input order is preserved (the output is a sublist of the input). -/
theorem get_ready_tasks_pure (tasks : List AgentTask) :
    (∀ t ∈ get_ready_tasks tasks, t ∈ tasks) ∧
    (get_ready_tasks tasks).Sublist tasks := by
  rw [get_ready_tasks_eq_filter]
  exact ⟨fun t ht => List.mem_of_mem_filter ht, List.filter_sublist tasks⟩

/-- C9: for every task text whose lowercasing contains "research" and
"report" but not "analyze", the keyword fallback with available types
["research", "writing"] produces exactly the two subtasks "task-1"
(research, no dependencies) and "task-2" (writing, depending on
["task-1"]). -/
theorem fallback_research_report (task : String)
    (h1 : strContains (strLower task) "research" = true)
    (h2 : strContains (strLower task) "report" = true)
    (h3 : strContains (strLower task) "analyze" = false) :
    fallback_decompose task ["research", "writing"] =
      some [mkAgentTask "task-1" ("Research: " ++ task) "research" [],
            mkAgentTask "task-2" "Write report" "writing" ["task-1"]] := by
  simp [fallback_decompose, h1, h2, h3, pickAgent, lastDeps, mkAgentTask]
  decide

theorem fallback_research_report_witness :
    strContains (strLower "Research the topic and write a report") "research" = true ∧
    strContains (strLower "Research the topic and write a report") "report" = true ∧
    strContains (strLower "Research the topic and write a report") "analyze" = false ∧
    fallback_decompose "Research the topic and write a report" ["research", "writing"] =
      some [mkAgentTask "task-1" "Research: Research the topic and write a report" "research" [],
            mkAgentTask "task-2" "Write report" "writing" ["task-1"]] :=
  ⟨by decide, by decide, by decide,
    fallback_research_report "Research the topic and write a report"
      (by decide) (by decide) (by decide)⟩

/-- The engine's keyword fallback implements the §4.2 algorithm exactly:
the sequential keyword scan of `_fallback_decompose` equals the
marker-table fold written from the spec's wording. -/
theorem fallback_decompose_eq_spec (task : String) (agents : List String) :
    fallback_decompose task agents = fallbackSpec task agents := by
  have e1 : ("task-" ++ toString (List.length ([] : List AgentTask) + 1)) = "task-1" := by
    decide
  unfold fallback_decompose fallbackSpec markerTable specStep
  simp only [List.foldl, List.any_cons, List.any_nil, Bool.or_false, Option.some_bind,
    Option.bind_assoc, Option.map_bind', List.nil_append, e1, lastDeps, List.getLast?_nil,
    List.isEmpty_iff]

/-- C5 (amended): every error that reaches the engine from the decomposition
step — the strategy's output being malformed so that converting it to
subtask records fails — is caught by `decompose_task`, which then produces
exactly the deterministic keyword-based fallback decomposition of §4.2
(the fixed-order scan of the lowercased task text). A call failure inside
the strategy, by contrast, never reaches the engine (see the
counterexample). -/
theorem decompose_error_uses_keyword_fallback (agents : List String)
    (task : String) (api : Except String (List SubtaskDict))
    (h : tasksFromDicts (llm_decompose task agents api) = none) :
    decompose_task agents (some api) task = fallbackSpec task agents := by
  simp only [decompose_task, h]
  exact fallback_decompose_eq_spec task agents

theorem decompose_error_uses_keyword_fallback_witness :
    tasksFromDicts (llm_decompose "find the data"
      ["research"] (Except.ok [{ task_id := some "task-1"
                                 description := none
                                 agent_type := none
                                 dependencies := none
                                 estimated_duration := none }])) = none ∧
    decompose_task ["research"]
      (some (Except.ok [{ task_id := some "task-1"
                          description := none
                          agent_type := none
                          dependencies := none
                          estimated_duration := none }])) "find the data" =
      fallbackSpec "find the data" ["research"] :=
  ⟨by decide,
    decompose_error_uses_keyword_fallback ["research"] "find the data"
      (Except.ok [{ task_id := some "task-1"
                    description := none
                    agent_type := none
                    dependencies := none
                    estimated_duration := none }]) (by decide)⟩

/-- C5 counterexample: a call failure inside the decomposition strategy is
caught by the strategy itself, which returns its own single-subtask
fallback; the engine therefore does not produce the §4.2 keyword fallback.
On a task containing "research" and "report" the engine yields one subtask
where the §4.2 fallback yields two. -/
theorem decompose_call_failure_cex :
    decompose_task ["research", "writing"]
        (some (Except.error "API call failed"))
        "research cats and write a report" ≠
      fallback_decompose "research cats and write a report"
        ["research", "writing"] ∧
    (decompose_task ["research", "writing"]
        (some (Except.error "API call failed"))
        "research cats and write a report").map List.length = some 1 ∧
    (fallback_decompose "research cats and write a report"
        ["research", "writing"]).map List.length = some 2 := by
  refine ⟨by decide, by decide, by decide⟩

/-- C6 (amended): a subtask whose assigned worker type has no registered
capability fails immediately: status failed, error text
`"No agent registered for type: <type>"`, zero worker invocations, and
retry count still 0. (The claim's quoted error text
`"no worker registered for type: <type>"` does not match the code; see the
counterexample.) -/
theorem execute_task_unregistered (reg : Registry) (t : AgentTask)
    (h : lookupAgent reg t.agent_type = none) (hrc : t.retry_count = 0) :
    (execute_task reg t).status = "failed" ∧
    (execute_task reg t).error =
      some ("No agent registered for type: " ++ t.agent_type) ∧
    (executeTaskInstr reg t).snd.fst = 0 ∧
    (execute_task reg t).retry_count = 0 := by
  simp [execute_task, executeTaskInstr, h, hrc]

/-- C6 counterexample: the error text the code writes is
`"No agent registered for type: …"`, not the claimed
`"no worker registered for type: …"`. -/
theorem execute_task_unregistered_cex :
    (execute_task [] (mkAgentTask "t1" "d" "writing" [])).error =
      some "No agent registered for type: writing" ∧
    (execute_task [] (mkAgentTask "t1" "d" "writing" [])).error ≠
      some "no worker registered for type: writing" := ⟨by decide, by decide⟩

theorem execute_task_unregistered_witness :
    lookupAgent [] (mkAgentTask "t1" "d" "writing" []).agent_type = none ∧
    (mkAgentTask "t1" "d" "writing" []).retry_count = 0 ∧
    ((execute_task [] (mkAgentTask "t1" "d" "writing" [])).status = "failed" ∧
     (execute_task [] (mkAgentTask "t1" "d" "writing" [])).error =
       some ("No agent registered for type: " ++
         (mkAgentTask "t1" "d" "writing" []).agent_type) ∧
     (executeTaskInstr [] (mkAgentTask "t1" "d" "writing" [])).snd.fst = 0 ∧
     (execute_task [] (mkAgentTask "t1" "d" "writing" [])).retry_count = 0) :=
  ⟨rfl, rfl, execute_task_unregistered [] (mkAgentTask "t1" "d" "writing" []) rfl rfl⟩

theorem retryLoop_ok (w : Worker) (t : AgentTask) (fuel : Nat) (out : String)
    (hw : w t.description t.retry_count = Except.ok out) :
    retryLoop w t (fuel + 1) =
      ({ t with status := "completed", result := some out, completed_at := true },
        1, ["completed"]) := by
  simp [retryLoop, hw]

theorem retryLoop_err_exhaust (w : Worker) (t : AgentTask) (fuel : Nat) (e : String)
    (hw : w t.description t.retry_count = Except.error e)
    (hgt : t.retry_count + 1 > t.max_retries) :
    retryLoop w t (fuel + 1) =
      ({ t with
          retry_count := t.retry_count + 1
          status := "failed"
          error := some ("Failed after " ++ toString t.max_retries ++ " retries: " ++ e)
          completed_at := true }, 1, ["failed"]) := by
  simp [retryLoop, hw, hgt]

theorem retryLoop_err_next (w : Worker) (t : AgentTask) (fuel : Nat) (e : String)
    (hw : w t.description t.retry_count = Except.error e)
    (hle : ¬ t.retry_count + 1 > t.max_retries) :
    retryLoop w t (fuel + 1) =
      ((retryLoop w { t with retry_count := t.retry_count + 1 } fuel).fst,
        (retryLoop w { t with retry_count := t.retry_count + 1 } fuel).snd.fst + 1,
        (retryLoop w { t with retry_count := t.retry_count + 1 } fuel).snd.snd) := by
  simp [retryLoop, hw, hle]

theorem lookupAgent_single (ty : String) (w : Worker) :
    lookupAgent [(ty, w)] ty = some w := by
  simp [lookupAgent, List.find?]

theorem executeTaskInstr_registered (reg : Registry) (t : AgentTask) (w : Worker)
    (hlk : lookupAgent reg t.agent_type = some w) :
    executeTaskInstr reg t =
      ((retryLoop w { t with
          status := "running"
          started_at := true
          assigned_agent := some t.agent_type } (t.max_retries + 1 - t.retry_count)).fst,
       (retryLoop w { t with
          status := "running"
          started_at := true
          assigned_agent := some t.agent_type } (t.max_retries + 1 - t.retry_count)).snd.fst,
       "running" :: (retryLoop w { t with
          status := "running"
          started_at := true
          assigned_agent := some t.agent_type } (t.max_retries + 1 - t.retry_count)).snd.snd) := by
  simp [executeTaskInstr, hlk]

theorem retryLoop3_ok (w : Worker) (u : AgentTask)
    (hm : u.max_retries = 2) (h0 : u.retry_count = 0) (e0 e1 out : String)
    (he0 : w u.description 0 = Except.error e0)
    (he1 : w u.description 1 = Except.error e1)
    (hok : w u.description 2 = Except.ok out) :
    (retryLoop w u 3).fst.status = "completed" ∧
    (retryLoop w u 3).fst.retry_count = 2 := by
  have h3 : retryLoop w u 3 = retryLoop w u (2 + 1) := rfl
  rw [h3, retryLoop_err_next w u 2 e0 (by rw [h0]; exact he0) (by omega)]
  have h2 : (2 : Nat) = 1 + 1 := rfl
  rw [h2, retryLoop_err_next w { u with retry_count := u.retry_count + 1 } 1 e1
    (by simp [h0]; exact he1) (by simp; omega)]
  have h1 : (1 : Nat) = 0 + 1 := rfl
  rw [h1, retryLoop_ok w _ 0 out (by simp [h0]; exact hok)]
  simp [h0]

theorem retryLoop3_fail (w : Worker) (u : AgentTask)
    (hm : u.max_retries = 2) (h0 : u.retry_count = 0) (f0 f1 f2 : String)
    (hf0 : w u.description 0 = Except.error f0)
    (hf1 : w u.description 1 = Except.error f1)
    (hf2 : w u.description 2 = Except.error f2) :
    (retryLoop w u 3).fst.status = "failed" ∧
    (retryLoop w u 3).fst.retry_count = 3 ∧
    (retryLoop w u 3).snd.fst = 3 := by
  have h3 : retryLoop w u 3 = retryLoop w u (2 + 1) := rfl
  rw [h3, retryLoop_err_next w u 2 f0 (by rw [h0]; exact hf0) (by omega)]
  have h2 : (2 : Nat) = 1 + 1 := rfl
  rw [h2, retryLoop_err_next w { u with retry_count := u.retry_count + 1 } 1 f1
    (by simp [h0]; exact hf1) (by simp; omega)]
  have h1 : (1 : Nat) = 0 + 1 := rfl
  rw [h1, retryLoop_err_exhaust w _ 0 f2 (by simp [h0]; exact hf2) (by simp; omega)]
  simp [h0]

/-- C2: for a fresh subtask with max retries 2 and a registered worker: a
worker failing exactly twice then succeeding yields status completed with
retry count 2; a worker failing on every invocation yields status failed
with retry count 3 = max retries + 1, and exactly 3 = max retries + 1
worker invocations are made in total. -/
theorem execute_task_retry_accounting (t : AgentTask) (w₁ w₂ : Worker)
    (hmax : t.max_retries = 2) (hrc : t.retry_count = 0)
    (h1a : ∀ n, n < 2 → ∃ e, w₁ t.description n = Except.error e)
    (h1b : ∃ out, w₁ t.description 2 = Except.ok out)
    (h2 : ∀ n, ∃ e, w₂ t.description n = Except.error e) :
    ((execute_task [(t.agent_type, w₁)] t).status = "completed" ∧
     (execute_task [(t.agent_type, w₁)] t).retry_count = 2) ∧
    ((execute_task [(t.agent_type, w₂)] t).status = "failed" ∧
     (execute_task [(t.agent_type, w₂)] t).retry_count = 3 ∧
     (executeTaskInstr [(t.agent_type, w₂)] t).snd.fst = 3) := by
  obtain ⟨e0, he0⟩ := h1a 0 (by omega)
  obtain ⟨e1, he1⟩ := h1a 1 (by omega)
  obtain ⟨out, hout⟩ := h1b
  obtain ⟨f0, hf0⟩ := h2 0
  obtain ⟨f1, hf1⟩ := h2 1
  obtain ⟨f2, hf2⟩ := h2 2
  simp only [execute_task,
    executeTaskInstr_registered [(t.agent_type, w₁)] t w₁ (lookupAgent_single _ _),
    executeTaskInstr_registered [(t.agent_type, w₂)] t w₂ (lookupAgent_single _ _),
    hmax, hrc]
  have hfuel : (2 + 1 - 0 : Nat) = 3 := rfl
  rw [hfuel]
  have P1 := retryLoop3_ok w₁
    { t with status := "running", started_at := true, assigned_agent := some t.agent_type }
    hmax hrc e0 e1 out he0 he1 hout
  have P2 := retryLoop3_fail w₂
    { t with status := "running", started_at := true, assigned_agent := some t.agent_type }
    hmax hrc f0 f1 f2 hf0 hf1 hf2
  simp only [hrc, hmax] at P1 P2
  exact ⟨⟨P1.1, P1.2⟩, P2.1, P2.2.1, P2.2.2⟩

theorem execute_task_retry_accounting_witness :
    (mkAgentTask "a" "d" "w" []).max_retries = 2 ∧
    (mkAgentTask "a" "d" "w" []).retry_count = 0 ∧
    (((execute_task [("w", flakyWorker)] (mkAgentTask "a" "d" "w" [])).status = "completed" ∧
      (execute_task [("w", flakyWorker)] (mkAgentTask "a" "d" "w" [])).retry_count = 2) ∧
     ((execute_task [("w", failWorker)] (mkAgentTask "a" "d" "w" [])).status = "failed" ∧
      (execute_task [("w", failWorker)] (mkAgentTask "a" "d" "w" [])).retry_count = 3 ∧
      (executeTaskInstr [("w", failWorker)] (mkAgentTask "a" "d" "w" [])).snd.fst = 3)) :=
  ⟨rfl, rfl,
    execute_task_retry_accounting (mkAgentTask "a" "d" "w" []) flakyWorker failWorker
      rfl rfl
      (fun n hn => ⟨"boom", by simp [flakyWorker, hn]⟩)
      ⟨"done", rfl⟩
      (fun n => ⟨"boom", rfl⟩)⟩

theorem retryLoop_writes (w : Worker) : ∀ (fuel : Nat) (t : AgentTask),
    t.retry_count + fuel = t.max_retries + 1 → 0 < fuel →
    (retryLoop w t fuel).snd.snd = ["completed"] ∨
    (retryLoop w t fuel).snd.snd = ["failed"] := by
  intro fuel
  induction fuel with
  | zero => intro t h hpos; omega
  | succ fuel ih =>
    intro t h _
    cases hw : w t.description t.retry_count with
    | ok out => rw [retryLoop_ok w t fuel out hw]; left; rfl
    | error e =>
      by_cases hgt : t.retry_count + 1 > t.max_retries
      · rw [retryLoop_err_exhaust w t fuel e hw hgt]; right; rfl
      · rw [retryLoop_err_next w t fuel e hw hgt]
        exact ih { t with retry_count := t.retry_count + 1 } (by simp; omega) (by omega)

/-- C3 (amended): for a fresh pending subtask, the sequence of status writes
made by `execute_task` is `running` then `completed`, or `running` then
`failed` — except that a subtask whose worker type is unregistered is
written `failed` directly without ever being `running`; `pending` is never
written again after dispatch. -/
theorem execute_task_status_transitions (reg : Registry) (t : AgentTask)
    (hst : t.status = "pending") (hrc : t.retry_count ≤ t.max_retries) :
    ((lookupAgent reg t.agent_type = none ∧
       (executeTaskInstr reg t).snd.snd = ["failed"]) ∨
     (∃ w, lookupAgent reg t.agent_type = some w ∧
       ((executeTaskInstr reg t).snd.snd = ["running", "completed"] ∨
        (executeTaskInstr reg t).snd.snd = ["running", "failed"]))) ∧
    "pending" ∉ (executeTaskInstr reg t).snd.snd := by
  cases hlk : lookupAgent reg t.agent_type with
  | none =>
    refine ⟨Or.inl ⟨rfl, ?_⟩, ?_⟩ <;> simp [executeTaskInstr, hlk]
  | some w =>
    rw [executeTaskInstr_registered reg t w hlk]
    have hw := retryLoop_writes w (t.max_retries + 1 - t.retry_count)
      { t with status := "running", started_at := true, assigned_agent := some t.agent_type }
      (by simp; omega) (by omega)
    rcases hw with hc | hf
    · rw [hc]
      exact ⟨Or.inr ⟨w, rfl, Or.inl rfl⟩, by simp⟩
    · rw [hf]
      exact ⟨Or.inr ⟨w, rfl, Or.inr rfl⟩, by simp⟩

/-- C3 counterexample: a pending subtask whose worker type is unregistered
is set to the terminal status failed directly — `running` is never written
— refuting the claim that a terminal state is only reached via running. -/
theorem execute_task_status_transitions_cex :
    (executeTaskInstr [] (mkAgentTask "a" "d" "x" [])).fst.status = "failed" ∧
    (executeTaskInstr [] (mkAgentTask "a" "d" "x" [])).snd.snd = ["failed"] ∧
    "running" ∉ (executeTaskInstr [] (mkAgentTask "a" "d" "x" [])).snd.snd := by
  refine ⟨by decide, by decide, by decide⟩

theorem execute_task_status_transitions_witness :
    (mkAgentTask "a" "d" "w" []).status = "pending" ∧
    (mkAgentTask "a" "d" "w" []).retry_count ≤ (mkAgentTask "a" "d" "w" []).max_retries ∧
    (((lookupAgent [("w", okWorker)] (mkAgentTask "a" "d" "w" []).agent_type = none ∧
       (executeTaskInstr [("w", okWorker)] (mkAgentTask "a" "d" "w" [])).snd.snd = ["failed"]) ∨
     (∃ w, lookupAgent [("w", okWorker)] (mkAgentTask "a" "d" "w" []).agent_type = some w ∧
       ((executeTaskInstr [("w", okWorker)] (mkAgentTask "a" "d" "w" [])).snd.snd =
          ["running", "completed"] ∨
        (executeTaskInstr [("w", okWorker)] (mkAgentTask "a" "d" "w" [])).snd.snd =
          ["running", "failed"]))) ∧
    "pending" ∉ (executeTaskInstr [("w", okWorker)] (mkAgentTask "a" "d" "w" [])).snd.snd) :=
  ⟨rfl, by decide,
    execute_task_status_transitions [("w", okWorker)] (mkAgentTask "a" "d" "w" []) rfl
      (by decide)⟩

theorem pickAgent_isSome (pref : String) (agents : List String) (h : agents ≠ []) :
    (pickAgent pref agents).isSome = true := by
  unfold pickAgent
  split
  · rfl
  · cases agents with
    | nil => exact absurd rfl h
    | cons a l => rfl

theorem fallback_decompose_isSome (task : String) (agents : List String)
    (h : agents ≠ []) : (fallback_decompose task agents).isSome = true := by
  obtain ⟨a1, ha1⟩ := Option.isSome_iff_exists.mp (pickAgent_isSome "research" agents h)
  obtain ⟨a2, ha2⟩ := Option.isSome_iff_exists.mp (pickAgent_isSome "analysis" agents h)
  obtain ⟨a3, ha3⟩ := Option.isSome_iff_exists.mp (pickAgent_isSome "writing" agents h)
  unfold fallback_decompose
  simp only [ha1, ha2, ha3]
  split_ifs <;> simp

theorem decompose_task_isSome (agents : List String)
    (llm : Option (Except String (List SubtaskDict))) (task : String)
    (h : agents ≠ []) : (decompose_task agents llm task).isSome = true := by
  unfold decompose_task
  cases llm with
  | none => exact fallback_decompose_isSome task agents h
  | some api =>
    cases htd : tasksFromDicts (llm_decompose task agents api) with
    | none => simp only [htd]; exact fallback_decompose_isSome task agents h
    | some tasks => simp [htd]

/-- C1 (amended): for every task description and every registry with at
least one registered worker type, `coordinate` terminates and returns a
result object; subtask failures, stalls and decomposition failures never
raise to the caller. (With an empty registry, the keyword fallback's
first-available-type access raises on keyword-containing task text; see the
counterexample.) -/
theorem coordinate_always_returns (reg : Registry)
    (llm : Option (Except String (List SubtaskDict))) (task : String)
    (h : registryTypes reg ≠ []) : (coordinate reg llm task).isSome = true := by
  unfold coordinate
  obtain ⟨S, hS⟩ :=
    Option.isSome_iff_exists.mp (decompose_task_isSome (registryTypes reg) llm task h)
  simp [hS]

theorem coordinate_always_returns_witness :
    registryTypes [("w", okWorker)] ≠ [] ∧
    (coordinate [("w", okWorker)] none "hello").isSome = true :=
  ⟨by decide, coordinate_always_returns [("w", okWorker)] none "hello" (by decide)⟩

/-- C1 counterexample: with an empty registry and no decomposition strategy,
a task containing the keyword "research" drives the fallback into
`agents[0]` on an empty list — an uncaught IndexError escaping `coordinate`,
modelled as `none`. -/
theorem coordinate_empty_registry_cex :
    coordinate [] none "research cats" = none := by decide

theorem retryLoop_preserves (w : Worker) : ∀ (fuel : Nat) (t : AgentTask),
    (retryLoop w t fuel).fst.task_id = t.task_id ∧
    (retryLoop w t fuel).fst.dependencies = t.dependencies ∧
    (retryLoop w t fuel).fst.agent_type = t.agent_type ∧
    (retryLoop w t fuel).fst.description = t.description := by
  intro fuel
  induction fuel with
  | zero => intro t; exact ⟨rfl, rfl, rfl, rfl⟩
  | succ fuel ih =>
    intro t
    cases hw : w t.description t.retry_count with
    | ok out => rw [retryLoop_ok w t fuel out hw]; exact ⟨rfl, rfl, rfl, rfl⟩
    | error e =>
      by_cases hgt : t.retry_count + 1 > t.max_retries
      · rw [retryLoop_err_exhaust w t fuel e hw hgt]; exact ⟨rfl, rfl, rfl, rfl⟩
      · rw [retryLoop_err_next w t fuel e hw hgt]
        exact ih { t with retry_count := t.retry_count + 1 }

theorem execute_task_preserves (reg : Registry) (t : AgentTask) :
    (execute_task reg t).task_id = t.task_id ∧
    (execute_task reg t).dependencies = t.dependencies ∧
    (execute_task reg t).agent_type = t.agent_type ∧
    (execute_task reg t).description = t.description := by
  cases hlk : lookupAgent reg t.agent_type with
  | none => simp [execute_task, executeTaskInstr, hlk]
  | some w =>
    rw [execute_task, executeTaskInstr_registered reg t w hlk]
    exact retryLoop_preserves w (t.max_retries + 1 - t.retry_count)
      { t with status := "running", started_at := true, assigned_agent := some t.agent_type }

theorem retryLoop_terminal (w : Worker) : ∀ (fuel : Nat) (t : AgentTask),
    t.retry_count + fuel = t.max_retries + 1 → 0 < fuel →
    (retryLoop w t fuel).fst.status = "completed" ∨
    (retryLoop w t fuel).fst.status = "failed" := by
  intro fuel
  induction fuel with
  | zero => intro t h hpos; omega
  | succ fuel ih =>
    intro t h _
    cases hw : w t.description t.retry_count with
    | ok out => rw [retryLoop_ok w t fuel out hw]; left; rfl
    | error e =>
      by_cases hgt : t.retry_count + 1 > t.max_retries
      · rw [retryLoop_err_exhaust w t fuel e hw hgt]; right; rfl
      · rw [retryLoop_err_next w t fuel e hw hgt]
        exact ih { t with retry_count := t.retry_count + 1 } (by simp; omega) (by omega)

theorem execute_task_terminal (reg : Registry) (t : AgentTask)
    (hrc : t.retry_count ≤ t.max_retries) :
    (execute_task reg t).status = "completed" ∨
    (execute_task reg t).status = "failed" := by
  cases hlk : lookupAgent reg t.agent_type with
  | none => right; simp [execute_task, executeTaskInstr, hlk]
  | some w =>
    rw [execute_task, executeTaskInstr_registered reg t w hlk]
    exact retryLoop_terminal w (t.max_retries + 1 - t.retry_count)
      { t with status := "running", started_at := true, assigned_agent := some t.agent_type }
      (by simp; omega) (by omega)

theorem execute_task_ok (reg : Registry) (t : AgentTask) (w : Worker) (out : String)
    (hlk : lookupAgent reg t.agent_type = some w)
    (hok : w t.description t.retry_count = Except.ok out)
    (hrc : t.retry_count ≤ t.max_retries) :
    (execute_task reg t).status = "completed" := by
  rw [execute_task, executeTaskInstr_registered reg t w hlk]
  obtain ⟨f, hf⟩ : ∃ f, t.max_retries + 1 - t.retry_count = f + 1 :=
    ⟨t.max_retries - t.retry_count, by omega⟩
  rw [hf, retryLoop_ok w
    { t with status := "running", started_at := true, assigned_agent := some t.agent_type }
    f out hok]

theorem countP_lt_of_exists {α : Type} (p q : α → Bool) : ∀ (l : List α),
    (∀ a ∈ l, q a = true → p a = true) →
    (∃ a ∈ l, p a = true ∧ q a = false) →
    l.countP q < l.countP p := by
  intro l
  induction l with
  | nil => intro _ hx; simp at hx
  | cons a l ih =>
    intro h hx
    rw [List.countP_cons, List.countP_cons]
    obtain ⟨b, hb, hpb, hqb⟩ := hx
    rcases List.mem_cons.mp hb with rfl | hbl
    · rw [if_pos hpb, if_neg (by simp [hqb])]
      have hle := List.countP_mono_left (l := l)
        (fun x hx hq => h x (List.mem_cons_of_mem b hx) hq)
      omega
    · have hlt := ih (fun x hx hq => h x (List.mem_cons_of_mem a hx) hq) ⟨b, hbl, hpb, hqb⟩
      have hhead : (if q a then 1 else 0) ≤ (if p a then 1 else 0) := by
        by_cases hqa : q a = true
        · rw [if_pos hqa, if_pos (h a (List.mem_cons_self a l) hqa)]
        · rw [if_neg (by simp [hqa])]; omega
      omega

theorem countP_map_le {α : Type} (p : α → Bool) (f : α → α) (l : List α)
    (h : ∀ a ∈ l, p (f a) = true → p a = true) :
    (l.map f).countP p ≤ l.countP p := by
  rw [List.countP_map]
  exact List.countP_mono_left (fun x hx hq => h x hx hq)

theorem countP_map_lt {α : Type} (p : α → Bool) (f : α → α) (l : List α)
    (h : ∀ a ∈ l, p (f a) = true → p a = true)
    (hx : ∃ a ∈ l, p a = true ∧ p (f a) = false) :
    (l.map f).countP p < l.countP p := by
  rw [List.countP_map]
  exact countP_lt_of_exists p (p ∘ f) l (fun x hxl hq => h x hxl hq) hx

theorem deps_met_unresolvable (tasks : List AgentTask) (ds : List String) (d : String)
    (hd : d ∈ ds) (h : ∀ u ∈ tasks, u.task_id ≠ d) : deps_met tasks ds = false := by
  rw [deps_met_eq_all]
  have hfind : tasks.find? (fun u => u.task_id == d) = none := by
    rw [List.find?_eq_none]
    intro u hu
    simp [h u hu]
  refine Bool.eq_false_iff.mpr (fun hall => ?_)
  have := (List.all_eq_true.mp hall) d hd
  rw [hfind] at this
  simp at this

theorem any_pending_iff (tasks : List AgentTask) :
    tasks.any (fun t => t.status == "pending") = true ↔ 0 < pendingCount tasks := by
  rw [pendingCount, List.countP_pos_iff, List.any_eq_true]

theorem step_pending_unchanged (reg : Registry) (T : List AgentTask)
    (hT : ∀ v ∈ T, v.status = "pending" → v.retry_count ≤ v.max_retries) :
    ∀ u ∈ T.map (fun t => if readyPred T t then execute_task reg t else t),
      u.status = "pending" → u ∈ T := by
  intro u hu hp
  obtain ⟨v, hv, rfl⟩ := List.mem_map.mp hu
  by_cases hr : readyPred T v = true
  · exfalso
    have hvp : v.status = "pending" := by
      have h1 := (Bool.and_eq_true _ _).mp hr
      simpa using h1.1
    have hterm := execute_task_terminal reg v (hT v hv hvp)
    rw [if_pos hr] at hp
    rcases hterm with h1 | h1 <;> rw [h1] at hp <;> simp at hp
  · rw [if_neg hr] at hp ⊢
    exact hv

theorem ready_mem_step_not_pending (reg : Registry) (T : List AgentTask)
    (hT : ∀ v ∈ T, v.status = "pending" → v.retry_count ≤ v.max_retries)
    (a : AgentTask) (ha : a ∈ T) (hra : readyPred T a = true) :
    a.status = "pending" ∧ (execute_task reg a).status ≠ "pending" := by
  have hap : a.status = "pending" := by
    have h1 := (Bool.and_eq_true _ _).mp hra
    simpa using h1.1
  refine ⟨hap, ?_⟩
  have hterm := execute_task_terminal reg a (hT a ha hap)
  rcases hterm with h1 | h1 <;> rw [h1] <;> simp

theorem coordLoop_stall_aux (reg : Registry) (S : List AgentTask) (s : AgentTask)
    (d : String) (hsp : s.status = "pending") (hsd : d ∈ s.dependencies)
    (hSrc : ∀ u ∈ S, u.retry_count ≤ u.max_retries) :
    ∀ (fuel : Nat) (T : List AgentTask),
      (∀ u ∈ T, u.status = "pending" → u ∈ S) →
      s ∈ T →
      (∀ u ∈ T, u.task_id ≠ d) →
      pendingCount T ≤ fuel →
      (coordLoop reg T fuel).snd.snd = true ∧ s ∈ (coordLoop reg T fuel).fst := by
  intro fuel
  induction fuel with
  | zero =>
    intro T hTS hsT hTd hpc
    exfalso
    have hpos : 0 < pendingCount T :=
      List.countP_pos_iff.mpr ⟨s, hsT, by simp [hsp]⟩
    omega
  | succ fuel ih =>
    intro T hTS hsT hTd hpc
    have hpos : 0 < pendingCount T :=
      List.countP_pos_iff.mpr ⟨s, hsT, by simp [hsp]⟩
    have hany : T.any (fun t => t.status == "pending") = true :=
      (any_pending_iff T).mpr hpos
    have hrcT : ∀ v ∈ T, v.status = "pending" → v.retry_count ≤ v.max_retries :=
      fun v hv hvp => hSrc v (hTS v hv hvp)
    have hsnr : readyPred T s = false := by
      simp [readyPred, deps_met_unresolvable T s.dependencies d hsd hTd]
    simp only [coordLoop, hany, if_true]
    by_cases hempty : (get_ready_tasks T).isEmpty = true
    · rw [if_pos hempty]
      exact ⟨rfl, hsT⟩
    · rw [if_neg hempty]
      have hTS2 : ∀ u ∈ T.map (fun t => if readyPred T t then execute_task reg t else t),
          u.status = "pending" → u ∈ S :=
        fun u hu hp => hTS u (step_pending_unchanged reg T hrcT u hu hp) hp
      have hsT2 : s ∈ T.map (fun t => if readyPred T t then execute_task reg t else t) :=
        List.mem_map.mpr ⟨s, hsT, by simp [hsnr]⟩
      have hTd2 : ∀ u ∈ T.map (fun t => if readyPred T t then execute_task reg t else t),
          u.task_id ≠ d := by
        intro u hu
        obtain ⟨v, hv, rfl⟩ := List.mem_map.mp hu
        by_cases hr : readyPred T v = true
        · rw [if_pos hr, (execute_task_preserves reg v).1]
          exact hTd v hv
        · rw [if_neg hr]
          exact hTd v hv
      have hdec : pendingCount (T.map (fun t => if readyPred T t then execute_task reg t else t)) <
          pendingCount T := by
        obtain ⟨a, haT, hra⟩ : ∃ a ∈ T, readyPred T a = true := by
          have hne : get_ready_tasks T ≠ [] := by
            intro hcon; rw [hcon] at hempty; exact hempty rfl
          obtain ⟨a, ha⟩ := List.exists_mem_of_ne_nil _ hne
          rw [get_ready_tasks_eq_filter] at ha
          exact ⟨a, List.mem_of_mem_filter ha, List.of_mem_filter ha⟩
        have hw := ready_mem_step_not_pending reg T hrcT a haT hra
        apply countP_map_lt
        · intro v hv hp
          have hvp : v.status = "pending" := by
            by_cases hr : readyPred T v = true
            · exfalso
              have h2 := ready_mem_step_not_pending reg T hrcT v hv hr
              simp only [hr, if_true] at hp
              exact h2.2 (by simpa using hp)
            · simp only [hr, if_false] at hp
              simpa using hp
          simp [hvp]
        · refine ⟨a, haT, by simp [hw.1], ?_⟩
          simp only [hra, if_true]
          exact Bool.eq_false_iff.mpr (fun hcon => hw.2 (by simpa using hcon))
      have hres := ih (T.map (fun t => if readyPred T t then execute_task reg t else t))
        hTS2 hsT2 hTd2 (by omega)
      exact hres

theorem aggregate_success_iff (task : String) (final : List AgentTask)
    (i : Nat) (st : Bool) :
    (aggregate task final i st).success = true ↔
      ∀ u ∈ final, u.status = "completed" := by
  show ((final.filter (fun t => t.status == "completed")).length == final.length) = true ↔ _
  rw [beq_iff_eq]
  constructor
  · intro h u hu
    by_contra hne
    have hlt : (final.filter (fun t => t.status == "completed")).length < final.length :=
      List.length_filter_lt_length_iff_exists.mpr ⟨u, hu, by simp [hne]⟩
    omega
  · intro h
    rw [List.filter_eq_self.mpr (fun a ha => by simp [h a ha])]

/-- C8 (amended): a subtask with a prerequisite identifier matching no
subtask of the set is never in any ready set, and — for a freshly decomposed
set of at most 50 subtasks — the run exits through the stall-detection
branch with that subtask still pending, reported in a non-success result,
not an exception. (Sets larger than the 50-iteration cap can instead exit
through the cap with the stall branch never taken; see the
counterexample.) -/
theorem coordinate_unresolvable_dep_stall (reg : Registry)
    (llm : Option (Except String (List SubtaskDict))) (task : String)
    (S : List AgentTask) (s : AgentTask) (d : String)
    (hdec : decompose_task (registryTypes reg) llm task = some S)
    (hs : s ∈ S) (hsp : s.status = "pending") (hsd : d ∈ s.dependencies)
    (hd : ∀ u ∈ S, u.task_id ≠ d)
    (hSrc : ∀ u ∈ S, u.retry_count ≤ u.max_retries)
    (hlen : S.length ≤ 50) :
    (∀ T : List AgentTask, (∀ u ∈ T, u.task_id ≠ d) →
       ∀ t ∈ get_ready_tasks T, d ∉ t.dependencies) ∧
    ∃ res, coordinate reg llm task = some res ∧ res.stalled = true ∧
      res.success = false ∧
      ∃ u ∈ res.subtasks, u.task_id = s.task_id ∧ u.status = "pending" := by
  constructor
  · intro T hTd t ht hdt
    rw [get_ready_tasks_eq_filter] at ht
    have hrp := List.of_mem_filter ht
    have h2 := (Bool.and_eq_true _ _).mp hrp
    rw [deps_met_unresolvable T t.dependencies d hdt hTd] at h2
    exact absurd h2.2 (by simp)
  · have hpc : pendingCount S ≤ 50 := le_trans (List.countP_le_length _) hlen
    have hmain := coordLoop_stall_aux reg S s d hsp hsd hSrc 50 S
      (fun u hu _ => hu) hs hd hpc
    refine ⟨aggregate task (coordLoop reg S 50).fst (coordLoop reg S 50).snd.fst
      (coordLoop reg S 50).snd.snd, by simp only [coordinate, hdec], ?_, ?_,
      s, hmain.2, rfl, hsp⟩
    · exact hmain.1
    · refine Bool.eq_false_iff.mpr (fun hcon => ?_)
      have hc := (aggregate_success_iff task (coordLoop reg S 50).fst
        (coordLoop reg S 50).snd.fst (coordLoop reg S 50).snd.snd).mp hcon s hmain.2
      rw [hsp] at hc
      simp at hc

theorem coordinate_unresolvable_dep_stall_witness :
    (∀ T : List AgentTask, (∀ u ∈ T, u.task_id ≠ "zzz") →
       ∀ t ∈ get_ready_tasks T, "zzz" ∉ t.dependencies) ∧
    ∃ res, coordinate [("w", okWorker)] (some (Except.ok stuckDicts)) "t" = some res ∧
      res.stalled = true ∧ res.success = false ∧
      ∃ u ∈ res.subtasks,
        u.task_id = (mkAgentTask "s" "dS" "w" ["zzz"]).task_id ∧ u.status = "pending" :=
  coordinate_unresolvable_dep_stall [("w", okWorker)] (some (Except.ok stuckDicts)) "t"
    stuckTasks (mkAgentTask "s" "dS" "w" ["zzz"]) "zzz"
    (by decide) (by decide) rfl (by decide) (by decide) (by decide) (by decide)

/-- C8 counterexample: a 50-link dependency chain plus a subtask with an
unresolvable prerequisite consumes every one of the 50 iterations on the
chain; the loop then exits through the iteration cap — not through stall
detection (`stalled = false`) — with the stuck subtask still pending. -/
theorem coordinate_unresolvable_dep_cex :
    (∃ s ∈ chainTasks, "zzz" ∈ s.dependencies ∧ ∀ u ∈ chainTasks, u.task_id ≠ "zzz") ∧
    (coordinate [("w", okWorker)] (some (Except.ok chainDicts)) "t").map
      (fun r => (r.stalled, r.subtasks.any (fun u => u.status == "pending"))) =
      some (false, true) := by
  refine ⟨by decide, ?_⟩
  set_option maxRecDepth 10000 in decide

theorem forall2_mem_right {R : AgentTask → AgentTask → Prop} {S T : List AgentTask}
    (h : List.Forall₂ R S T) : ∀ b ∈ T, ∃ a ∈ S, R a b := by
  induction h with
  | nil => intro b hb; simp at hb
  | cons ha hl ih =>
    intro b hb
    rcases List.mem_cons.mp hb with rfl | hb2
    · exact ⟨_, List.mem_cons_self _ _, ha⟩
    · obtain ⟨a, haS, hr⟩ := ih b hb2
      exact ⟨a, List.mem_cons_of_mem _ haS, hr⟩

theorem forall2_mem_left {R : AgentTask → AgentTask → Prop} {S T : List AgentTask}
    (h : List.Forall₂ R S T) : ∀ a ∈ S, ∃ b ∈ T, R a b := by
  induction h with
  | nil => intro a ha; simp at ha
  | cons ha hl ih =>
    intro a haS
    rcases List.mem_cons.mp haS with rfl | ha2
    · exact ⟨_, List.mem_cons_self _ _, ha⟩
    · obtain ⟨b, hbT, hr⟩ := ih a ha2
      exact ⟨b, List.mem_cons_of_mem _ hbT, hr⟩

theorem forall2_map_right {R : AgentTask → AgentTask → Prop} (f : AgentTask → AgentTask) :
    ∀ {S T : List AgentTask}, List.Forall₂ R S T →
    (∀ a b, a ∈ S → b ∈ T → R a b → R a (f b)) → List.Forall₂ R S (T.map f) := by
  intro S T h
  induction h with
  | nil => intro _; simp
  | cons ha hl ih =>
    intro hf
    simp only [List.map_cons]
    exact List.Forall₂.cons
      (hf _ _ (List.mem_cons_self _ _) (List.mem_cons_self _ _) ha)
      (ih (fun a b haS hbT hr =>
        hf a b (List.mem_cons_of_mem _ haS) (List.mem_cons_of_mem _ hbT) hr))

theorem ready_nonempty (S T : List AgentTask) (rank : String → Nat)
    (hF : List.Forall₂ RInv S T)
    (hres : ∀ u ∈ S, ∀ dd ∈ u.dependencies, ∃ v ∈ S, v.task_id = dd)
    (hrank : ∀ u ∈ S, ∀ dd ∈ u.dependencies, rank dd < rank u.task_id)
    (hpos : 0 < pendingCount T) :
    ∃ t ∈ T, readyPred T t = true := by
  have hPne : T.filter (fun u => u.status == "pending") ≠ [] := by
    intro hcon
    rw [pendingCount, List.countP_eq_length_filter, hcon] at hpos
    simp at hpos
  cases hmin : List.argmin (fun u => rank u.task_id)
      (T.filter (fun u => u.status == "pending")) with
  | none => exact absurd (List.argmin_eq_none.mp hmin) hPne
  | some t =>
    have htP := List.argmin_mem hmin
    have htT := List.mem_of_mem_filter htP
    have htpend : t.status = "pending" := by
      have := List.of_mem_filter htP
      simpa using this
    obtain ⟨a, haS, hRa⟩ := forall2_mem_right hF t htT
    have hta : t = a := hRa.2.2.2.2.1 htpend
    refine ⟨t, htT, ?_⟩
    rw [readyPred]
    refine (Bool.and_eq_true _ _).mpr ⟨by simp [htpend], ?_⟩
    rw [deps_met_eq_all, List.all_eq_true]
    intro dd hdd
    have hddS : dd ∈ a.dependencies := by rw [← hRa.2.1]; exact hdd
    obtain ⟨v, hvS, hvid⟩ := hres a haS dd hddS
    obtain ⟨v2, hv2T, hRv⟩ := forall2_mem_left hF v hvS
    have hfind : (T.find? (fun u => u.task_id == dd)).isSome = true := by
      rw [List.find?_isSome]
      exact ⟨v2, hv2T, by simp [hRv.1, hvid]⟩
    obtain ⟨u0, hu0⟩ := Option.isSome_iff_exists.mp hfind
    have hu0T := List.mem_of_find?_eq_some hu0
    have hu0id : u0.task_id = dd := by
      have := List.find?_some hu0
      simpa using this
    obtain ⟨a0, ha0S, hRa0⟩ := forall2_mem_right hF u0 hu0T
    have hu0comp : u0.status = "completed" := by
      rcases hRa0.2.2.2.2.2 with hp | hc
      · exfalso
        have hu0P : u0 ∈ T.filter (fun u => u.status == "pending") :=
          List.mem_filter.mpr ⟨hu0T, by simp [hp]⟩
        have hle := List.le_of_mem_argmin hu0P hmin
        have hlt : rank dd < rank a.task_id := hrank a haS dd hddS
        rw [hu0id] at hle
        rw [← hta] at hlt
        omega
      · exact hc
    rw [hu0]
    simp [hu0comp]

theorem coordLoop_complete_aux (reg : Registry) (S : List AgentTask) (rank : String → Nat)
    (hres : ∀ u ∈ S, ∀ dd ∈ u.dependencies, ∃ v ∈ S, v.task_id = dd)
    (hrank : ∀ u ∈ S, ∀ dd ∈ u.dependencies, rank dd < rank u.task_id)
    (hrc0 : ∀ u ∈ S, u.retry_count = 0)
    (hwok : ∀ u ∈ S, ∃ w, lookupAgent reg u.agent_type = some w ∧
      ∃ out, w u.description 0 = Except.ok out) :
    ∀ (fuel : Nat) (T : List AgentTask), List.Forall₂ RInv S T →
      pendingCount T ≤ fuel →
      ∀ u ∈ (coordLoop reg T fuel).fst, u.status = "completed" := by
  intro fuel
  induction fuel with
  | zero =>
    intro T hF hpc u hu
    obtain ⟨a, haS, hRa⟩ := forall2_mem_right hF u hu
    rcases hRa.2.2.2.2.2 with hp | hc
    · exfalso
      have hpos : 0 < pendingCount T := List.countP_pos_iff.mpr ⟨u, hu, by simp [hp]⟩
      omega
    · exact hc
  | succ fuel ih =>
    intro T hF hpc
    have hrcT : ∀ v ∈ T, v.status = "pending" → v.retry_count ≤ v.max_retries := by
      intro v hv hvp
      obtain ⟨a, haS, hRa⟩ := forall2_mem_right hF v hv
      rw [hRa.2.2.2.2.1 hvp, hrc0 a haS]
      omega
    by_cases hany : T.any (fun t => t.status == "pending") = true
    · have hpos := (any_pending_iff T).mp hany
      obtain ⟨t0, ht0T, hrt0⟩ := ready_nonempty S T rank hF hres hrank hpos
      have hempty : ¬ (get_ready_tasks T).isEmpty = true := by
        rw [get_ready_tasks_eq_filter]
        intro hcon
        rw [List.isEmpty_iff] at hcon
        have hmem : t0 ∈ T.filter (readyPred T) := List.mem_filter.mpr ⟨ht0T, hrt0⟩
        rw [hcon] at hmem
        simp at hmem
      simp only [coordLoop, hany, if_true]
      rw [if_neg hempty]
      have hF2 : List.Forall₂ RInv S
          (T.map (fun t => if readyPred T t then execute_task reg t else t)) := by
        apply forall2_map_right _ hF
        intro a b haS hbT hRab
        by_cases hr : readyPred T b = true
        · have hbp : b.status = "pending" := by
            have h1 := (Bool.and_eq_true _ _).mp hr
            simpa using h1.1
          have hba : b = a := hRab.2.2.2.2.1 hbp
          obtain ⟨w, hlkw, out, hokw⟩ := hwok a haS
          have hlkb : lookupAgent reg b.agent_type = some w := by
            rw [hRab.2.2.1]; exact hlkw
          have hokb : w b.description b.retry_count = Except.ok out := by
            rw [hRab.2.2.2.1, hba, hrc0 a haS]
            exact hokw
          have hcomp : (execute_task reg b).status = "completed" :=
            execute_task_ok reg b w out hlkb hokb (by rw [hba, hrc0 a haS]; omega)
          have hpres := execute_task_preserves reg b
          rw [if_pos hr]
          refine ⟨?_, ?_, ?_, ?_, ?_, Or.inr hcomp⟩
          · rw [hpres.1]; exact hRab.1
          · rw [hpres.2.1]; exact hRab.2.1
          · rw [hpres.2.2.1]; exact hRab.2.2.1
          · rw [hpres.2.2.2]; exact hRab.2.2.2.1
          · intro hcon; rw [hcomp] at hcon; simp at hcon
        · rw [if_neg hr]; exact hRab
      have hdec2 : pendingCount
          (T.map (fun t => if readyPred T t then execute_task reg t else t)) <
          pendingCount T := by
        have hw := ready_mem_step_not_pending reg T hrcT t0 ht0T hrt0
        apply countP_map_lt
        · intro v hv hp
          have hvp : v.status = "pending" := by
            by_cases hr : readyPred T v = true
            · exfalso
              have h2 := ready_mem_step_not_pending reg T hrcT v hv hr
              simp only [hr, if_true] at hp
              exact h2.2 (by simpa using hp)
            · simp only [hr, if_false] at hp
              simpa using hp
          simp [hvp]
        · refine ⟨t0, ht0T, by simp [hw.1], ?_⟩
          simp only [hrt0, if_true]
          exact Bool.eq_false_iff.mpr (fun hcon => hw.2 (by simpa using hcon))
      exact ih _ hF2 (by omega)
    · simp only [coordLoop]
      rw [if_neg hany]
      intro u hu
      obtain ⟨a, haS, hRa⟩ := forall2_mem_right hF u hu
      rcases hRa.2.2.2.2.2 with hp | hc
      · exfalso
        apply hany
        rw [List.any_eq_true]
        exact ⟨u, hu, by simp [hp]⟩
      · exact hc

/-- C4 (amended): for every coordination run, the result's success flag is
true exactly when every subtask is completed; and for a freshly decomposed,
acyclic (rank-decreasing), fully resolvable subtask set of at most 50
subtasks whose every worker is registered and succeeds, `coordinate`
terminates with every subtask completed and success true. (Without the
always-succeeding-worker assumption a failed prerequisite leaves its
dependents pending — a non-terminal state — so the claim's "every subtask
terminal" does not hold; see the counterexample.) -/
theorem coordinate_acyclic_terminal (reg : Registry)
    (llm : Option (Except String (List SubtaskDict))) (task : String)
    (S : List AgentTask) (rank : String → Nat)
    (hdec : decompose_task (registryTypes reg) llm task = some S)
    (hpend : ∀ u ∈ S, u.status = "pending")
    (hrc0 : ∀ u ∈ S, u.retry_count = 0)
    (hres : ∀ u ∈ S, ∀ dd ∈ u.dependencies, ∃ v ∈ S, v.task_id = dd)
    (hrank : ∀ u ∈ S, ∀ dd ∈ u.dependencies, rank dd < rank u.task_id)
    (hwok : ∀ u ∈ S, ∃ w, lookupAgent reg u.agent_type = some w ∧
      ∃ out, w u.description 0 = Except.ok out)
    (hlen : S.length ≤ 50) :
    (∀ (reg2 : Registry) (llm2 : Option (Except String (List SubtaskDict)))
       (task2 : String) (res2 : OrchResult),
       coordinate reg2 llm2 task2 = some res2 →
       (res2.success = true ↔ ∀ u ∈ res2.subtasks, u.status = "completed")) ∧
    ∃ res, coordinate reg llm task = some res ∧
      (∀ u ∈ res.subtasks, u.status = "completed") ∧ res.success = true := by
  constructor
  · intro reg2 llm2 task2 res2 h2
    unfold coordinate at h2
    cases hd2 : decompose_task (registryTypes reg2) llm2 task2 with
    | none => rw [hd2] at h2; exact absurd h2 (by simp)
    | some S2 =>
      rw [hd2] at h2
      have h3 := Option.some.inj h2
      rw [← h3]
      exact aggregate_success_iff task2 _ _ _
  · have hFrefl : List.Forall₂ RInv S S :=
      List.forall₂_same.mpr (fun a ha =>
        ⟨rfl, rfl, rfl, rfl, fun _ => rfl, Or.inl (hpend a ha)⟩)
    have hall := coordLoop_complete_aux reg S rank hres hrank hrc0 hwok 50 S hFrefl
      (le_trans (List.countP_le_length _) hlen)
    exact ⟨aggregate task (coordLoop reg S 50).fst (coordLoop reg S 50).snd.fst
      (coordLoop reg S 50).snd.snd, by simp only [coordinate, hdec], hall,
      (aggregate_success_iff task _ _ _).mpr hall⟩

theorem coordinate_acyclic_terminal_witness :
    (∀ (reg2 : Registry) (llm2 : Option (Except String (List SubtaskDict)))
       (task2 : String) (res2 : OrchResult),
       coordinate reg2 llm2 task2 = some res2 →
       (res2.success = true ↔ ∀ u ∈ res2.subtasks, u.status = "completed")) ∧
    ∃ res, coordinate [("w", okWorker)] (some (Except.ok diamondDicts)) "t" = some res ∧
      (∀ u ∈ res.subtasks, u.status = "completed") ∧ res.success = true :=
  coordinate_acyclic_terminal [("w", okWorker)] (some (Except.ok diamondDicts)) "t"
    diamondTasks diamondRank (by decide) (by decide) (by decide) (by decide) (by decide)
    (by intro u hu; fin_cases hu <;> exact ⟨okWorker, rfl, "done", rfl⟩) (by decide)

/-- C4 counterexample: the two-subtask graph b ← a is acyclic and fully
resolvable, yet when a's worker always fails, the run ends with a failed
and b still pending — not a terminal state — refuting "every subtask in a
terminal state". -/
theorem coordinate_acyclic_terminal_cex :
    (∀ u ∈ failPairTasks, ∀ dd ∈ u.dependencies, ∃ v ∈ failPairTasks, v.task_id = dd) ∧
    (∀ u ∈ failPairTasks, ∀ dd ∈ u.dependencies, failPairRank dd < failPairRank u.task_id) ∧
    (coordinate [("w", failWorker)] (some (Except.ok failPairDicts)) "t").map
      (fun r => r.subtasks.map (fun u => (u.task_id, u.status))) =
      some [("a", "failed"), ("b", "pending")] := by
  refine ⟨by decide, by decide, by decide⟩

end AgentOps
